import Mathlib

/-!
# Rate My Captain — a shallow embedding of `src/app.py`

This file embeds the data model and the route handlers of the single-file
Flask application `app.py` as executable Lean definitions, and proves the
behavioural claims about the suggestion-consensus engine, the rating
aggregator, the review cooldown, and the assignment ledger.

Modelling conventions, fixed once for the whole file:
* SQLAlchemy rows become Lean structures; the database becomes a `DB`
  structure of lists, in insertion order (SQLite rowid order, which is the
  order unordered queries return and the order `.first()` picks from).
* `datetime.utcnow()` becomes an explicit `now : Int` parameter measured in
  hours, so `timedelta(hours=24)` is the constant `24` and
  `timedelta(days=14)` is `14 * 24`.
* Python `float` arithmetic on small rational score values is modelled by
  `ℚ`; `round(x, 2)` is modelled by `round2` below.
* Only the POST bodies of the route handlers are modelled (the GET branches
  render forms); session auth is assumed granted, since every claim is about
  an authenticated submission. Missing captains return a `notFound` message
  mirroring the handlers' early `404` return.
-/

/-! ## Configuration constants (app.py lines 20-28) -/

def MIN_DISPLAY_REVIEWS : Nat := 3

def SUGGESTION_WINDOW_DAYS : Int := 14

def CONSENSUS_THRESHOLD : Nat := 2

def SUGGESTION_EXPIRE_DAYS : Int := 60

/-- Hours in a day; times in this model are `Int` hours. -/
def HOURS_PER_DAY : Int := 24

/-- `timedelta(days=SUGGESTION_WINDOW_DAYS)` in hours. -/
def suggestionWindow : Int := SUGGESTION_WINDOW_DAYS * HOURS_PER_DAY

/-- `timedelta(hours=24)` used by the review cooldown check. -/
def REVIEW_COOLDOWN_HOURS : Int := 24

def ALLOWED_BASES : List String :=
  ["ORD","IAH","DEN","EWR","IAD","DCA","SFO","LAX","CLE","LGA","GUM","LAS","MCO"]

def ALLOWED_FLEETS : List String :=
  ["737","757","767","777","787","A319","A320","A321"]

/-- Python `str.strip()`: drop whitespace from both ends. -/
def pyStrip (s : String) : String :=
  String.mk (((s.data.dropWhile Char.isWhitespace).reverse.dropWhile
    Char.isWhitespace).reverse)

/-- Python `str.upper()` on ASCII data. -/
def pyToUpper (s : String) : String := String.mk (s.data.map Char.toUpper)

/-- Python `str.lower()` on ASCII data. -/
def pyToLower (s : String) : String := String.mk (s.data.map Char.toLower)

/-- `(request.form.get(x) or "").strip().upper()` on a present form value. -/
def pyNorm (x : String) : String := pyToUpper (pyStrip x)

/-! ## Data model (app.py lines 378-441) -/

structure Captain where
  id : Nat
  employee_id : String
  name : String
  base : String
  fleet : String
  updated_at : Int
deriving DecidableEq, Repr

structure Review where
  captain_id : Nat
  created_at : Int
  reviewer_hash : String
  crm_inclusion : Int
  communication : Int
  easy_to_fly : Int
  micromanage : Int
  workload_share : Int
  helps_box : Int
  helps_walk : Int
  skill_sop : Int
  temperament : Int
  respectfulness : Int
  boundaries : Int
  cabin_respect : Int
  would_fly_again : Int
  chattiness : Int
  mentorship : Int
  humor_vibe : Int
deriving DecidableEq, Repr

structure CaptainAssignment where
  captain_id : Nat
  base : String
  fleet : String
  start_date : Int
  end_date : Option Int
  changed_at : Int
deriving DecidableEq, Repr

inductive SugStatus where
  | pending
  | approved
  | rejected
  | expired
deriving DecidableEq, Repr

structure EditSuggestion where
  captain_id : Nat
  new_base : String
  new_fleet : String
  status : SugStatus
  created_at : Int
  resolved_at : Option Int
  creator_hash : String
deriving DecidableEq, Repr

structure DB where
  captains : List Captain
  reviews : List Review
  assignments : List CaptainAssignment
  suggestions : List EditSuggestion
deriving DecidableEq, Repr

/-! ## Rating aggregator (app.py lines 460-501) -/

/-- `def inv(x): return 6 - x` -/
def inv (x : Int) : Int := 6 - x

/-- The 16 per-review score columns, addressed by key as the Python code
addresses them with `getattr`/`request.form.get`. -/
inductive Key where
  | crm_inclusion
  | communication
  | easy_to_fly
  | micromanage
  | workload_share
  | helps_box
  | helps_walk
  | skill_sop
  | temperament
  | respectfulness
  | boundaries
  | cabin_respect
  | would_fly_again
  | chattiness
  | mentorship
  | humor_vibe
deriving DecidableEq, Repr

/-- `getattr(r, key)` for the 16 score columns. -/
def getScore (r : Review) : Key → Int
  | .crm_inclusion => r.crm_inclusion
  | .communication => r.communication
  | .easy_to_fly => r.easy_to_fly
  | .micromanage => r.micromanage
  | .workload_share => r.workload_share
  | .helps_box => r.helps_box
  | .helps_walk => r.helps_walk
  | .skill_sop => r.skill_sop
  | .temperament => r.temperament
  | .respectfulness => r.respectfulness
  | .boundaries => r.boundaries
  | .cabin_respect => r.cabin_respect
  | .would_fly_again => r.would_fly_again
  | .chattiness => r.chattiness
  | .mentorship => r.mentorship
  | .humor_vibe => r.humor_vibe

/-- `EVAL_KEYS = [k for k,_,_ in EVAL_BLOCK_1 + EVAL_BLOCK_2] + ["would_fly_again"]` -/
def EVAL_KEYS : List Key :=
  [.crm_inclusion, .communication, .easy_to_fly, .micromanage, .workload_share,
   .helps_box, .helps_walk,
   .skill_sop, .temperament, .respectfulness, .boundaries, .cabin_respect,
   .would_fly_again]

/-- `STYLE_KEYS = [k for k,_,_ in STYLE_BLOCK]` -/
def STYLE_KEYS : List Key := [.chattiness, .mentorship, .humor_vibe]

/-- Mean of a list of integers as a rational (`sum(vals)/len(vals)`). -/
def intMean (l : List Int) : ℚ := ((l.sum : ℚ)) / (l.length : ℚ)

/-- Model of Python `round(x, 2)` on the small rational values at play. -/
def round2 (q : ℚ) : ℚ := ((round (q * 100) : ℤ) : ℚ) / 100

/-- `overall_from_review` (app.py lines 493-501): per-review mean of the 13
scoring values with micromanage inverted. -/
def overall_from_review (r : Review) : ℚ :=
  let vals : List Int :=
    [r.crm_inclusion, r.communication, r.easy_to_fly,
     inv r.micromanage,
     r.workload_share, r.helps_box, r.helps_walk,
     r.skill_sop, r.temperament, r.respectfulness, r.boundaries, r.cabin_respect,
     r.would_fly_again]
  intMean vals

/-- The raw value list the captain page averages for key `key`
(`vals = [getattr(r,key) for r in reviews]`, inverted for micromanage). -/
def catVals (reviews : List Review) (k : Key) : List Int :=
  let vals := reviews.map (fun r => getScore r k)
  if k = Key.micromanage then vals.map inv else vals

/-- `cat_avgs[key] = round(sum(vals)/len(vals), 2)` (app.py line 588). -/
def catAvg (reviews : List Review) (k : Key) : ℚ :=
  round2 (intMean (catVals reviews k))

/-! ## Route handler: captain page (app.py lines 572-601) -/

/-- What `captain_page` hands to the template: the review count, the
per-category averages dict, the overall score (`None` below threshold), and
the pending-suggestion count. -/
structure CaptainView where
  count : Nat
  cat_avgs : List (Key × ℚ)
  overall : Option ℚ
  pending_count : Nat
deriving DecidableEq, Repr

/-- `captain_page` (app.py lines 572-601); `none` is the `404` branch. -/
def captain_page (db : DB) (cid : Nat) : Option CaptainView :=
  match db.captains.find? (fun c => c.id == cid) with
  | none => none
  | some _ =>
    let reviews := db.reviews.filter (fun r => r.captain_id == cid)
    let count := reviews.length
    let all_keys := EVAL_KEYS ++ STYLE_KEYS
    let cat_avgs :=
      if MIN_DISPLAY_REVIEWS ≤ count then
        all_keys.map (fun k => (k, catAvg reviews k))
      else []
    let overall :=
      if MIN_DISPLAY_REVIEWS ≤ count then
        some (round2 (((EVAL_KEYS.map (fun k => catAvg reviews k)).sum) / (EVAL_KEYS.length : ℚ)))
      else none
    let pending_count :=
      (db.suggestions.filter (fun m => m.captain_id == cid && m.status == SugStatus.pending)).length
    some ⟨count, cat_avgs, overall, pending_count⟩

/-! ## Route handler: index data loop and top listing (app.py 540-548, 771-807) -/

/-- The `data` list built by the loop in `index` (app.py lines 540-548):
below-threshold captains are never appended, so they carry no average. -/
def index_data (db : DB) (captains : List Captain) : List (Nat × ℚ × Nat) :=
  captains.filterMap (fun c =>
    let reviews := db.reviews.filter (fun r => r.captain_id == c.id)
    let count := reviews.length
    if MIN_DISPLAY_REVIEWS ≤ count then
      some (c.id, (reviews.map overall_from_review).sum / (count : ℚ), count)
    else none)

/-- Descending comparison on `(avg, count)` used by
`rows.sort(key=lambda x: (x[1], x[2]), reverse=True)`. -/
def rowGe (a b : Nat × ℚ × Nat) : Bool :=
  decide (b.2.1 < a.2.1 ∨ (b.2.1 = a.2.1 ∧ b.2.2 ≤ a.2.2))

def insertRow (a : Nat × ℚ × Nat) : List (Nat × ℚ × Nat) → List (Nat × ℚ × Nat)
  | [] => [a]
  | b :: rest => if rowGe a b then a :: b :: rest else b :: insertRow a rest

def sortRows : List (Nat × ℚ × Nat) → List (Nat × ℚ × Nat)
  | [] => []
  | a :: rest => insertRow a (sortRows rest)

/-- `top_rated` (app.py lines 771-807): filter by optional base/fleet, drop
captains below the review threshold, average, sort descending, take 10. -/
def top_rated (db : DB) (baseF fleetF : String) : List (Nat × ℚ × Nat) :=
  let rows := db.captains.filterMap (fun c =>
    if baseF ≠ "" ∧ c.base ≠ baseF then none
    else if fleetF ≠ "" ∧ c.fleet ≠ fleetF then none
    else
      let reviews := db.reviews.filter (fun r => r.captain_id == c.id)
      let count := reviews.length
      if count < MIN_DISPLAY_REVIEWS then none
      else some (c.id, round2 ((reviews.map overall_from_review).sum / (count : ℚ)), count))
  (sortRows rows).take 10

/-! ## Route handler: review submission (app.py lines 603-649) -/

/-- Python `v.isdigit()` on an ASCII form value, combined with the
truthiness test `v and v.isdigit()` (empty string is falsy). -/
def pyIsDigit (v : String) : Bool := v ≠ "" && v.data.all Char.isDigit

/-- `int(v)` on a digit string. -/
def digitsToNat (v : String) : Nat :=
  v.data.foldl (fun n c => n * 10 + (c.toNat - 48)) 0

/-- `payload[key] = int(v) if v and v.isdigit() else 3` (app.py line 632). -/
def parseScore (o : Option String) : Int :=
  match o with
  | some v => if pyIsDigit v then (digitsToNat v : Int) else 3
  | none => 3

/-- Build the `Review(captain_id=cid, reviewer_hash=r_hash, **payload)` row. -/
def mkReview (cid : Nat) (r_hash : String) (now : Int) (score : Key → Int) : Review :=
  { captain_id := cid
    created_at := now
    reviewer_hash := r_hash
    crm_inclusion := score .crm_inclusion
    communication := score .communication
    easy_to_fly := score .easy_to_fly
    micromanage := score .micromanage
    workload_share := score .workload_share
    helps_box := score .helps_box
    helps_walk := score .helps_walk
    skill_sop := score .skill_sop
    temperament := score .temperament
    respectfulness := score .respectfulness
    boundaries := score .boundaries
    cabin_respect := score .cabin_respect
    would_fly_again := score .would_fly_again
    chattiness := score .chattiness
    mentorship := score .mentorship
    humor_vibe := score .humor_vibe }

inductive ReviewMsg where
  | notFound
  | cooldown
  | accepted
deriving DecidableEq, Repr

/-- The `recent` query of `review_new` (app.py lines 617-621): reviews of
this captain by this reviewer hash created within the last 24 hours. -/
def recentReviews (db : DB) (cid : Nat) (r_hash : String) (now : Int) : List Review :=
  db.reviews.filter (fun r =>
    r.captain_id == cid && r.reviewer_hash == r_hash &&
    decide (now - REVIEW_COOLDOWN_HOURS ≤ r.created_at))

/-- POST body of `review_new` (app.py lines 603-640): reject when the same
reviewer hash reviewed this captain within the last 24 hours, otherwise
store a new review parsed leniently from the form. -/
def review_new (db : DB) (cid : Nat) (r_hash : String)
    (form : Key → Option String) (now : Int) : DB × ReviewMsg :=
  match db.captains.find? (fun c => c.id == cid) with
  | none => (db, .notFound)
  | some _ =>
    if recentReviews db cid r_hash now ≠ [] then (db, .cooldown)
    else
      let r := mkReview cid r_hash now (fun k => parseScore (form k))
      ({ db with reviews := db.reviews ++ [r] }, .accepted)

/-! ## Route handler: captain creation (app.py lines 651-677) -/

/-- Python `str.split()`: maximal runs of non-whitespace characters. -/
def splitWords : List Char → List Char → List (List Char)
  | [], acc => if acc = [] then [] else [acc.reverse]
  | c :: cs, acc =>
    if c.isWhitespace then
      if acc = [] then splitWords cs [] else acc.reverse :: splitWords cs []
    else splitWords cs (c :: acc)

/-- Python `str.capitalize`: first character upper-cased, the rest lowered. -/
def pyCapitalize : List Char → List Char
  | [] => []
  | c :: cs => c.toUpper :: cs.map Char.toLower

/-- `" ".join(ws)` over character lists. -/
def joinSpace : List (List Char) → List Char
  | [] => []
  | [w] => w
  | w :: ws => w ++ ' ' :: joinSpace ws

/-- `" ".join(p.capitalize() for p in name.split())`. -/
def normName (s : String) : String :=
  String.mk (joinSpace ((splitWords s.data []).map pyCapitalize))

/-- The autoincrement primary key the database would assign. -/
def nextCaptainId (db : DB) : Nat :=
  (db.captains.map (fun c => c.id)).foldr max 0 + 1

inductive CaptainNewMsg where
  | invalid
  | alreadyExists (cid : Nat)
  | added (cid : Nat)
deriving DecidableEq, Repr

/-- POST body of `captain_new` (app.py lines 651-677): validate, dedupe by
normalized name + base + fleet, then create the captain together with its
initial open assignment record. -/
def captain_new (db : DB) (name form_base form_fleet : String)
    (eid : String) (now : Int) : DB × CaptainNewMsg :=
  let nm := pyStrip name
  let base := pyNorm form_base
  let fleet := pyNorm form_fleet
  if nm = "" ∨ base ∉ ALLOWED_BASES ∨ fleet ∉ ALLOWED_FLEETS then (db, .invalid)
  else
    let norm_name := normName nm
    match db.captains.find? (fun c =>
        pyToLower c.name == pyToLower norm_name && c.base == base && c.fleet == fleet) with
    | some c => (db, .alreadyExists c.id)
    | none =>
      let newId := nextCaptainId db
      ({ db with
          captains := db.captains ++
            [{ id := newId, employee_id := eid, name := norm_name,
               base := base, fleet := fleet, updated_at := now }]
          assignments := db.assignments ++
            [{ captain_id := newId, base := base, fleet := fleet,
               start_date := now, end_date := none, changed_at := now }] },
       .added newId)

/-! ## Route handler: suggestion submission / consensus engine
(app.py lines 679-751) -/

/-- The freshly created `EditSuggestion(...)` row (app.py line 711). -/
def newSug (cid : Nat) (B F ch : String) (now : Int) : EditSuggestion :=
  { captain_id := cid, new_base := B, new_fleet := F, status := .pending,
    created_at := now, resolved_at := none, creator_hash := ch }

/-- The consensus-match predicate (app.py lines 716-722): same captain,
exactly matching proposed base and fleet, still pending, created within the
trailing window (`created_at >= since`). -/
def isMatch (cid : Nat) (B F : String) (since : Int) (m : EditSuggestion) : Bool :=
  m.captain_id == cid && m.new_base == B && m.new_fleet == F &&
  m.status == SugStatus.pending && decide (since ≤ m.created_at)

/-- `matches` as queried after inserting the new suggestion. -/
def consensusMatches (sugs : List EditSuggestion) (cid : Nat) (B F : String)
    (since : Int) : List EditSuggestion :=
  sugs.filter (isMatch cid B F since)

/-- Approving one matching suggestion (`m.status = "approved";
m.resolved_at = datetime.utcnow()`). -/
def approveIfMatch (cid : Nat) (B F : String) (since now : Int)
    (m : EditSuggestion) : EditSuggestion :=
  if isMatch cid B F since m then { m with status := .approved, resolved_at := some now }
  else m

/-- Close the first open assignment for `cid`, as
`s.scalars(select(...).where(end_date.is_(None))).first()` followed by
`current.end_date = datetime.utcnow()` does (app.py lines 732-737). -/
def closeFirstOpen (cid : Nat) (now : Int) :
    List CaptainAssignment → List CaptainAssignment
  | [] => []
  | a :: rest =>
    if a.captain_id == cid && a.end_date.isNone then
      { a with end_date := some now } :: rest
    else a :: closeFirstOpen cid now rest

/-- The row condition of the `existing_mine` query (app.py lines 699-703):
a pending suggestion for captain `cid` by creator `creator_hash`. -/
def pendingPred (creator_hash : String) (cid : Nat) (m : EditSuggestion) : Bool :=
  m.captain_id == cid && m.creator_hash == creator_hash &&
  m.status == SugStatus.pending

/-- The `existing_mine` query of `suggest_update` (app.py lines 699-703):
pending suggestions for this captain by this creator, any proposed values. -/
def pendingFor (db : DB) (creator_hash : String) (cid : Nat) : List EditSuggestion :=
  db.suggestions.filter (pendingPred creator_hash cid)

inductive SuggestMsg where
  | notFound
  | invalidBaseFleet
  | duplicatePending
  | consensusReached
  | recorded
deriving DecidableEq, Repr

/-- POST body of `suggest_update` (app.py lines 679-751): validate the
proposed base/fleet, reject a second pending suggestion by the same creator,
record the suggestion, then run the windowed distinct-creator consensus
check and, on consensus, approve all matches, roll the assignment ledger and
update the captain in the same commit. -/
def suggest_update (db : DB) (cid : Nat) (creator_hash : String)
    (form_base form_fleet : String) (now : Int) : DB × SuggestMsg :=
  match db.captains.find? (fun c => c.id == cid) with
  | none => (db, .notFound)
  | some _ =>
    let new_base := pyNorm form_base
    let new_fleet := pyNorm form_fleet
    if new_base ∉ ALLOWED_BASES ∨ new_fleet ∉ ALLOWED_FLEETS then
      (db, .invalidBaseFleet)
    else
      if pendingFor db creator_hash cid ≠ [] then (db, .duplicatePending)
      else
        let sug := newSug cid new_base new_fleet creator_hash now
        let sugs := db.suggestions ++ [sug]
        let since := now - suggestionWindow
        let matchList := consensusMatches sugs cid new_base new_fleet since
        let creators := (matchList.map (fun m => m.creator_hash)).dedup
        if CONSENSUS_THRESHOLD ≤ creators.length then
          let sugs2 := sugs.map (approveIfMatch cid new_base new_fleet since now)
          let asg2 := closeFirstOpen cid now db.assignments ++
            [{ captain_id := cid, base := new_base, fleet := new_fleet,
               start_date := now, end_date := none, changed_at := now }]
          let caps2 := db.captains.map (fun c =>
            if c.id == cid then
              { c with base := new_base, fleet := new_fleet, updated_at := now }
            else c)
          ({ db with captains := caps2, assignments := asg2, suggestions := sugs2 },
           .consensusReached)
        else
          ({ db with suggestions := sugs }, .recorded)

/-! ## Spec-side definition of the overall score (for claim C2)

Written from the spec's words, independently of `captain_page`: the overall
score is the arithmetic mean of the 13 scoring-category averages — the 12
evaluative categories, with every raw micromanagement value transformed by
`v ↦ 6 - v` before averaging, plus would-fly-again — rounded to 2 decimal
places; the 3 style categories do not appear. Category averages are the
displayed (2-decimal-rounded) averages. -/

/-- A displayed category average per the spec: round to 2 decimals the mean
of one extracted value per review. -/
def specCatAvg (reviews : List Review) (f : Review → Int) : ℚ :=
  round2 (intMean (reviews.map f))

/-- Modelled from the spec: the overall score as the spec describes it. -/
def specOverallScore (reviews : List Review) : ℚ :=
  round2 ((specCatAvg reviews (fun r => r.crm_inclusion)
    + specCatAvg reviews (fun r => r.communication)
    + specCatAvg reviews (fun r => r.easy_to_fly)
    + specCatAvg reviews (fun r => 6 - r.micromanage)
    + specCatAvg reviews (fun r => r.workload_share)
    + specCatAvg reviews (fun r => r.helps_box)
    + specCatAvg reviews (fun r => r.helps_walk)
    + specCatAvg reviews (fun r => r.skill_sop)
    + specCatAvg reviews (fun r => r.temperament)
    + specCatAvg reviews (fun r => r.respectfulness)
    + specCatAvg reviews (fun r => r.boundaries)
    + specCatAvg reviews (fun r => r.cabin_respect)
    + specCatAvg reviews (fun r => r.would_fly_again)) / 13)

/-! ## Name-resolution model of the `index` route (for claim C10)

The body of `index` (app.py lines 527-561) is modelled statement by
statement as reads and bindings of Python names, because the interesting
behaviour is a name-resolution error: line 538 reads `s` before the
`with Session(engine) as s:` on line 541 binds it.  Compound statements are
flattened: `with E as x:` evaluates `E`, binds `x` and runs the body (and
`x` stays bound after it); `for x in E:` reads `E`, binds `x` and is
modelled as running its body once; the `if q:` branch is a parameter of the
program.  These choices only add bindings after the failing statement, which
precedes every loop and the `with` block. -/

inductive PyStmt where
  | assign (lhs : String) (reads : List String)
  | exprStmt (reads : List String)
  | ret (reads : List String)
deriving DecidableEq, Repr

inductive PyOutcome where
  | returned
  | fellOff
  | nameError (n : String)
deriving DecidableEq, Repr

/-- The first name an expression reads that the environment does not bind
(Python raises `NameError` on it). -/
def firstUnbound (env : List String) (reads : List String) : Option String :=
  reads.find? (fun n => !(env.contains n))

/-- Run a flattened statement list over an environment of bound names. -/
def runStmts : List PyStmt → List String → PyOutcome
  | [], _ => .fellOff
  | .assign lhs reads :: rest, env =>
    match firstUnbound env reads with
    | some n => .nameError n
    | none => runStmts rest (lhs :: env)
  | .exprStmt reads :: rest, env =>
    match firstUnbound env reads with
    | some n => .nameError n
    | none => runStmts rest env
  | .ret reads :: rest, _ =>
    match firstUnbound [] reads, rest with
    | _, _ => .returned

/-- Names visible inside `index` before any local assignment: the module
globals of app.py that its body mentions, and builtins.  `app.py` never
assigns `s` at module level (every `s` is a `with ... as s:` local inside a
function body), so `s` is absent. -/
def indexGlobals : List String :=
  ["select", "Captain", "request", "or_", "Session", "engine", "Review",
   "MIN_DISPLAY_REVIEWS", "overall_from_review", "render_template",
   "APP_NAME", "len", "sum"]

/-- The body of `index` (app.py lines 529-561), flattened.  `qNonempty`
selects the `if q:` branch (line 532). -/
def indexProgram (qNonempty : Bool) : List PyStmt :=
  [PyStmt.assign "stmt" ["select", "Captain"],
   PyStmt.assign "q" ["request"]]
  ++ (if qNonempty then
        [PyStmt.assign "like" ["q"],
         PyStmt.assign "stmt" ["stmt", "or_", "Captain", "like"]]
      else [])
  ++ [PyStmt.assign "captains" ["s", "stmt", "Captain"],
      PyStmt.assign "data" [],
      PyStmt.assign "s" ["Session", "engine"],
      PyStmt.assign "c" ["captains"],
      PyStmt.assign "reviews" ["s", "select", "Review", "c"],
      PyStmt.assign "count" ["len", "reviews"],
      PyStmt.assign "avg" [],
      PyStmt.exprStmt ["count", "MIN_DISPLAY_REVIEWS"],
      PyStmt.assign "avg" ["sum", "overall_from_review", "reviews", "count"],
      PyStmt.exprStmt ["data", "c", "avg", "count"],
      PyStmt.assign "all_names" ["captains"],
      PyStmt.ret ["render_template", "data", "q", "MIN_DISPLAY_REVIEWS",
                  "APP_NAME", "all_names"]]

/-! ## Derived queries and concrete fixtures -/

/-- The open (null `end_date`) assignments of one captain. -/
def openFor (asg : List CaptainAssignment) (cid : Nat) : List CaptainAssignment :=
  asg.filter (fun a => a.captain_id == cid && a.end_date.isNone)

/-- A one-captain database with a single open assignment and one pending
suggestion for (IAH, 757) by creator `k1` at time 0. -/
def sampleDB : DB :=
  { captains := [{ id := 1, employee_id := "CA-TEST01", name := "John Smith",
                   base := "ORD", fleet := "737", updated_at := 0 }],
    reviews := [],
    assignments := [{ captain_id := 1, base := "ORD", fleet := "737",
                      start_date := 0, end_date := none, changed_at := 0 }],
    suggestions := [{ captain_id := 1, new_base := "IAH", new_fleet := "757",
                      status := .pending, created_at := 0, resolved_at := none,
                      creator_hash := "k1" }] }

/-- A maximally positive review (micromanage raw 1 inverts to 5). -/
def sampleReview5 : Review :=
  mkReview 1 "h1" 0 (fun k => if k = Key.micromanage then 1 else 5)

/-- `sampleDB` with three reviews (at the display threshold). -/
def sampleDB3 : DB := { sampleDB with reviews := [sampleReview5, sampleReview5, sampleReview5] }

/-- `sampleDB` with one review (below the display threshold). -/
def sampleDB1 : DB := { sampleDB with reviews := [sampleReview5] }

/-- `sampleDB` with one all-3 review by hash `h` at time 0. -/
def sampleDBr : DB := { sampleDB with reviews := [mkReview 1 "h" 0 (fun _ => 3)] }

/-- A form answering 3 everywhere. -/
def form3 : Key → Option String := fun _ => some "3"

/-- A form answering 9 for CRM inclusion and 3 everywhere else. -/
def form9 : Key → Option String :=
  fun k => if k = Key.crm_inclusion then some "9" else some "3"

/-! ## Helper lemmas -/

/-- Filtering a mapped list where the map can only falsify the predicate
never increases the filtered length. -/
theorem length_filter_map_le {α : Type} (p : α → Bool) (f : α → α)
    (h : ∀ x, p (f x) = true → p x = true) (l : List α) :
    ((l.map f).filter p).length ≤ (l.filter p).length := by
  induction l with
  | nil => simp
  | cons a t ih =>
    simp only [List.map_cons, List.filter_cons]
    by_cases hfa : p (f a) = true
    · rw [if_pos hfa, if_pos (h a hfa)]
      simpa using Nat.succ_le_succ ih
    · rw [if_neg hfa]
      by_cases ha : p a = true
      · rw [if_pos ha]
        exact Nat.le_succ_of_le ih
      · rw [if_neg ha]
        exact ih

theorem mem_insertRow {x a : Nat × ℚ × Nat} {l : List (Nat × ℚ × Nat)} :
    x ∈ insertRow a l ↔ x = a ∨ x ∈ l := by
  induction l with
  | nil => simp [insertRow]
  | cons b t ih =>
    simp only [insertRow]
    by_cases h : rowGe a b = true
    · simp [h]
    · simp only [h, Bool.false_eq_true, if_false, List.mem_cons, ih]
      tauto

theorem mem_sortRows {x : Nat × ℚ × Nat} {l : List (Nat × ℚ × Nat)} :
    x ∈ sortRows l ↔ x ∈ l := by
  induction l with
  | nil => simp [sortRows]
  | cons a t ih => simp [sortRows, mem_insertRow, ih]

theorem le_foldr_max {x : Nat} {l : List Nat} (hx : x ∈ l) (b : Nat) :
    x ≤ l.foldr max b := by
  induction l with
  | nil => cases hx
  | cons a t ih =>
    rcases List.mem_cons.mp hx with rfl | hmem
    · exact le_max_left _ _
    · exact le_trans (ih hmem) (le_max_right _ _)

/-- Every captain id is strictly below the next autoincrement id. -/
theorem id_lt_nextCaptainId {db : DB} {c : Captain} (hc : c ∈ db.captains) :
    c.id < nextCaptainId db := by
  have : c.id ≤ (db.captains.map (fun c => c.id)).foldr max 0 :=
    le_foldr_max (List.mem_map_of_mem _ hc) 0
  exact Nat.lt_succ_of_le this

/-- `closeFirstOpen` leaves other captains' open assignments unchanged. -/
theorem openFor_closeFirstOpen_ne {cid cid' : Nat} (hne : cid' ≠ cid) (now : Int)
    (l : List CaptainAssignment) :
    openFor (closeFirstOpen cid now l) cid' = openFor l cid' := by
  induction l with
  | nil => rfl
  | cons a t ih =>
    simp only [closeFirstOpen]
    by_cases h : (a.captain_id == cid && a.end_date.isNone) = true
    · rw [if_pos h]
      have hacid : a.captain_id = cid := by
        have h' := h
        simp only [Bool.and_eq_true, beq_iff_eq] at h'
        exact h'.1
      simp only [openFor, List.filter_cons]
      have h1 : (a.captain_id == cid') = false := by
        simp [hacid, Ne.symm hne]
      simp [h1]
    · rw [if_neg h]
      simp only [openFor, List.filter_cons] at *
      by_cases h2 : (a.captain_id == cid' && a.end_date.isNone) = true
      · simp [h2, ih]
      · simp [h2, ih]

/-- `closeFirstOpen` drops exactly one element from the open list (none if
there was none). -/
theorem openFor_closeFirstOpen_self (cid : Nat) (now : Int)
    (l : List CaptainAssignment) :
    (openFor (closeFirstOpen cid now l) cid).length = (openFor l cid).length - 1 := by
  induction l with
  | nil => rfl
  | cons a t ih =>
    simp only [closeFirstOpen]
    by_cases h : (a.captain_id == cid && a.end_date.isNone) = true
    · rw [if_pos h]
      simp only [openFor, List.filter_cons]
      have hclosed : (a.captain_id == cid && (Option.some now).isNone) = false := by
        simp
      simp only [hclosed, Bool.false_eq_true, if_false, h, if_pos, List.length_cons]
      simp
    · rw [if_neg h]
      simp only [openFor, List.filter_cons] at *
      simp only [h, Bool.false_eq_true, if_false]
      exact ih

/-! ## Claim theorems -/

/-- C10: for every request (whether or not a search query is present), the
captain-listing route `GET /` raises `NameError` on the name `s`, because
line 538 reads `s` at the captain query before the `with Session(engine)
as s:` block on line 541 binds it; the route never returns a result. -/
theorem index_always_raises_name_error_s (qNonempty : Bool) :
    runStmts (indexProgram qNonempty) indexGlobals = PyOutcome.nameError "s" := by
  cases qNonempty <;> decide

/-- C7 (failing input): `review_new` accepts the crafted form value "9" for
`crm_inclusion` (any digit string passes `v.isdigit()`), creating a Review
whose `crm_inclusion` sub-score is 9, outside the advertised range [1,5]. -/
theorem review_new_stores_out_of_range_score :
    ∃ r, (review_new sampleDB 1 "h" form9 0).1.reviews = [r] ∧
      r.crm_inclusion = 9 ∧ ¬(1 ≤ r.crm_inclusion ∧ r.crm_inclusion ≤ 5) ∧
      (review_new sampleDB 1 "h" form9 0).2 = ReviewMsg.accepted :=
  ⟨_, rfl, rfl, by decide, rfl⟩

/-- C8: a second review for the same captain by the same pseudonymous
reviewer hash within the 24-hour cooldown window is rejected with no new
Review record; once every prior review by that hash for that captain is
older than the window, the submission is accepted and appended. -/
theorem review_cooldown_window
    (db : DB) (cid : Nat) (ch : String) (form : Key → Option String) (now : Int) :
    ((db.captains.find? (fun c => c.id == cid)).isSome = true →
      (∃ r ∈ db.reviews, r.captain_id = cid ∧ r.reviewer_hash = ch ∧
        now - REVIEW_COOLDOWN_HOURS ≤ r.created_at) →
      review_new db cid ch form now = (db, ReviewMsg.cooldown))
    ∧ ((db.captains.find? (fun c => c.id == cid)).isSome = true →
      (∀ r ∈ db.reviews, r.captain_id = cid → r.reviewer_hash = ch →
        r.created_at < now - REVIEW_COOLDOWN_HOURS) →
      review_new db cid ch form now =
        ({ db with reviews := db.reviews ++
            [mkReview cid ch now (fun k => parseScore (form k))] },
         ReviewMsg.accepted)) := by
  constructor
  · rintro hc ⟨r, hr, hcid, hch, hwin⟩
    obtain ⟨c, hf⟩ := Option.isSome_iff_exists.mp hc
    have hmem : r ∈ recentReviews db cid ch now := by
      simp only [recentReviews, List.mem_filter, Bool.and_eq_true, beq_iff_eq,
        decide_eq_true_eq]
      exact ⟨hr, ⟨hcid, hch⟩, hwin⟩
    have hne : recentReviews db cid ch now ≠ [] := List.ne_nil_of_mem hmem
    simp [review_new, hf, hne]
  · intro hc hall
    obtain ⟨c, hf⟩ := Option.isSome_iff_exists.mp hc
    have hnil : recentReviews db cid ch now = [] := by
      unfold recentReviews
      rw [List.filter_eq_nil_iff]
      intro r hr
      simp only [Bool.and_eq_true, beq_iff_eq, decide_eq_true_eq, not_and]
      intro h1
      exact not_le.mpr (hall r hr h1.1 h1.2)
    simp [review_new, hf, hnil]

/-- C8 witness: in `sampleDBr` (one review by hash `h` at time 0), a second
submission at time 10 is rejected, and a submission at time 25 is accepted. -/
theorem review_cooldown_window_witness :
    review_new sampleDBr 1 "h" form3 10 = (sampleDBr, ReviewMsg.cooldown) ∧
    review_new sampleDBr 1 "h" form3 25 =
      ({ sampleDBr with reviews := sampleDBr.reviews ++
          [mkReview 1 "h" 25 (fun k => parseScore (form3 k))] }, ReviewMsg.accepted) :=
  ⟨(review_cooldown_window sampleDBr 1 "h" form3 10).1 (by decide)
      ⟨mkReview 1 "h" 0 (fun _ => 3), by decide, by decide, by decide, by decide⟩,
   (review_cooldown_window sampleDBr 1 "h" form3 25).2 (by decide) (by decide)⟩

/-! ## Lemmas about the suggestion engine, ledger and read paths -/

/-- Approval can only falsify the pending-suggestion predicate, never
establish it. -/
theorem pendingPred_approveIfMatch {K' : String} {cid' : Nat} {cid : Nat} {B F : String}
    {since now : Int} {m : EditSuggestion}
    (h : pendingPred K' cid' (approveIfMatch cid B F since now m) = true) :
    pendingPred K' cid' m = true := by
  unfold approveIfMatch at h
  by_cases hm : isMatch cid B F since m = true
  · rw [if_pos hm] at h
    exfalso
    simp [pendingPred] at h
  · rwa [if_neg hm] at h

/-- A freshly created suggestion is a pending suggestion only for its own
creator/captain pair. -/
theorem pendingPred_newSug_false {K' : String} {cid' : Nat} {cid : Nat}
    {ch B F : String} {now : Int} (hk : ¬(K' = ch ∧ cid' = cid)) :
    pendingPred K' cid' (newSug cid B F ch now) = false := by
  rcases not_and_or.mp hk with h | h
  · have hb : ((newSug cid B F ch now).creator_hash == K') = false :=
      beq_eq_false_iff_ne.mpr (Ne.symm h)
    simp [pendingPred, hb]
  · have hb : ((newSug cid B F ch now).captain_id == cid') = false :=
      beq_eq_false_iff_ne.mpr (Ne.symm h)
    simp [pendingPred, hb]

/-- Appending the new suggestion keeps every creator/captain pair at no more
than one pending suggestion, given the duplicate check passed. -/
theorem append_newSug_pending_le
    (db : DB) (cid cid' : Nat) (ch K' B F : String) (now : Int)
    (hmine : pendingFor db ch cid = [])
    (hone : (db.suggestions.filter (pendingPred K' cid')).length ≤ 1) :
    ((db.suggestions ++ [newSug cid B F ch now]).filter (pendingPred K' cid')).length ≤ 1 := by
  rw [List.filter_append]
  by_cases hk : K' = ch ∧ cid' = cid
  · obtain ⟨rfl, rfl⟩ := hk
    have h0 : db.suggestions.filter (pendingPred K' cid') = [] := hmine
    rw [h0]
    simpa using List.length_filter_le _ [newSug cid' B F K' now]
  · simp only [List.filter_singleton, pendingPred_newSug_false hk, cond_false,
      List.append_nil]
    exact hone

/-- `suggest_update` preserves "at most one pending suggestion per creator
per captain" for every pair. -/
theorem pendingFor_suggest_update_le
    (db : DB) (cid : Nat) (ch fb ff : String) (now : Int) (K' : String) (cid' : Nat)
    (hone : (pendingFor db K' cid').length ≤ 1) :
    (pendingFor ((suggest_update db cid ch fb ff now).1) K' cid').length ≤ 1 := by
  unfold suggest_update
  cases hfind : db.captains.find? (fun c => c.id == cid) with
  | none => simpa using hone
  | some c =>
    simp only
    by_cases hval : pyNorm fb ∉ ALLOWED_BASES ∨ pyNorm ff ∉ ALLOWED_FLEETS
    · rw [if_pos hval]; simpa using hone
    · rw [if_neg hval]
      by_cases hmine : pendingFor db ch cid ≠ []
      · rw [if_pos hmine]; simpa using hone
      · rw [if_neg hmine]
        by_cases hcons : CONSENSUS_THRESHOLD ≤
          (((consensusMatches (db.suggestions ++ [newSug cid (pyNorm fb) (pyNorm ff) ch now])
              cid (pyNorm fb) (pyNorm ff) (now - suggestionWindow)).map
                (fun m => m.creator_hash)).dedup).length
        · rw [if_pos hcons]
          show ((((db.suggestions ++ [newSug cid (pyNorm fb) (pyNorm ff) ch now]).map
            (approveIfMatch cid (pyNorm fb) (pyNorm ff) (now - suggestionWindow) now)).filter
              (pendingPred K' cid')).length) ≤ 1
          refine le_trans
            (length_filter_map_le (pendingPred K' cid')
              (approveIfMatch cid (pyNorm fb) (pyNorm ff) (now - suggestionWindow) now)
              (fun x hx => pendingPred_approveIfMatch hx)
              (db.suggestions ++ [newSug cid (pyNorm fb) (pyNorm ff) ch now])) ?_
          exact append_newSug_pending_le db cid cid' ch K' (pyNorm fb) (pyNorm ff) now
            (not_not.mp hmine) hone
        · rw [if_neg hcons]
          exact append_newSug_pending_le db cid cid' ch K' (pyNorm fb) (pyNorm ff) now
            (not_not.mp hmine) hone

/-- `captain_new` never touches the suggestions table. -/
theorem captain_new_suggestions_eq (db : DB) (name fb ff eid : String) (now : Int) :
    ((captain_new db name fb ff eid now).1).suggestions = db.suggestions := by
  unfold captain_new
  by_cases h : pyStrip name = "" ∨ pyNorm fb ∉ ALLOWED_BASES ∨ pyNorm ff ∉ ALLOWED_FLEETS
  · rw [if_pos h]
  · rw [if_neg h]
    dsimp only
    split <;> rfl

/-- `review_new` never touches the suggestions table. -/
theorem review_new_suggestions_eq (db : DB) (cid : Nat) (ch : String)
    (form : Key → Option String) (now : Int) :
    ((review_new db cid ch form now).1).suggestions = db.suggestions := by
  unfold review_new
  split
  · rfl
  · split <;> rfl

/-- With a duplicate pending suggestion by the same creator, `suggest_update`
leaves the database unchanged and reports one of its rejection messages. -/
theorem suggest_update_duplicate_no_mutation
    (db : DB) (cid : Nat) (ch fb ff : String) (now : Int)
    (hdup : pendingFor db ch cid ≠ []) :
    (suggest_update db cid ch fb ff now).1 = db ∧
      ((suggest_update db cid ch fb ff now).2 = SuggestMsg.duplicatePending ∨
       (suggest_update db cid ch fb ff now).2 = SuggestMsg.invalidBaseFleet ∨
       (suggest_update db cid ch fb ff now).2 = SuggestMsg.notFound) := by
  unfold suggest_update
  cases hfind : db.captains.find? (fun c => c.id == cid) with
  | none => exact ⟨rfl, Or.inr (Or.inr rfl)⟩
  | some c =>
    simp only
    by_cases hval : pyNorm fb ∉ ALLOWED_BASES ∨ pyNorm ff ∉ ALLOWED_FLEETS
    · rw [if_pos hval]
      exact ⟨rfl, Or.inr (Or.inl rfl)⟩
    · rw [if_neg hval, if_pos hdup]
      exact ⟨rfl, Or.inl rfl⟩

/-- With a valid captain and base/fleet, the duplicate rejection is exactly
the duplicate-pending message. -/
theorem suggest_update_duplicate_msg
    (db : DB) (cid : Nat) (ch fb ff : String) (now : Int)
    (hc : (db.captains.find? (fun c => c.id == cid)).isSome = true)
    (hB : pyNorm fb ∈ ALLOWED_BASES) (hF : pyNorm ff ∈ ALLOWED_FLEETS)
    (hdup : pendingFor db ch cid ≠ []) :
    suggest_update db cid ch fb ff now = (db, SuggestMsg.duplicatePending) := by
  obtain ⟨c, hf⟩ := Option.isSome_iff_exists.mp hc
  have hval : ¬(pyNorm fb ∉ ALLOWED_BASES ∨ pyNorm ff ∉ ALLOWED_FLEETS) := by
    rintro (h | h) <;> contradiction
  unfold suggest_update
  rw [hf]
  simp only
  rw [if_neg hval, if_pos hdup]

/-- After running the approval pass, no suggestion still satisfies the
consensus-match predicate (approval clears the pending status it requires). -/
theorem isMatch_approveIfMatch_false (cid : Nat) (B F : String) (since now : Int)
    (m : EditSuggestion) :
    isMatch cid B F since (approveIfMatch cid B F since now m) = false := by
  unfold approveIfMatch
  by_cases hm : isMatch cid B F since m = true
  · rw [if_pos hm]
    simp [isMatch]
  · rw [if_neg hm]
    exact Bool.not_eq_true _ |>.mp hm

/-- `review_new` never touches the assignment ledger. -/
theorem review_new_assignments_eq (db : DB) (cid : Nat) (ch : String)
    (form : Key → Option String) (now : Int) :
    ((review_new db cid ch form now).1).assignments = db.assignments := by
  unfold review_new
  split
  · rfl
  · split <;> rfl

/-- `captain_new` preserves "at most one open assignment per captain":
existing captains' ledgers are untouched and the new captain gets exactly
one open record under a fresh autoincrement id. -/
theorem openFor_captain_new_le
    (db : DB) (name fb ff eid : String) (now : Int) (cid : Nat)
    (hwf : ∀ a ∈ db.assignments, ∃ c ∈ db.captains, a.captain_id = c.id)
    (hone : (openFor db.assignments cid).length ≤ 1) :
    (openFor ((captain_new db name fb ff eid now).1).assignments cid).length ≤ 1 := by
  unfold captain_new
  by_cases h : pyStrip name = "" ∨ pyNorm fb ∉ ALLOWED_BASES ∨ pyNorm ff ∉ ALLOWED_FLEETS
  · rw [if_pos h]
    exact hone
  · rw [if_neg h]
    dsimp only
    split
    · exact hone
    · show (openFor (db.assignments ++
        [{ captain_id := nextCaptainId db, base := pyNorm fb, fleet := pyNorm ff,
           start_date := now, end_date := none, changed_at := now }]) cid).length ≤ 1
      unfold openFor at hone ⊢
      rw [List.filter_append]
      by_cases hcid : cid = nextCaptainId db
      · have hempty : db.assignments.filter
            (fun a => a.captain_id == cid && a.end_date.isNone) = [] := by
          rw [List.filter_eq_nil_iff]
          intro a ha hp
          obtain ⟨c', hc', heq⟩ := hwf a ha
          have hacid : a.captain_id = cid := by
            have hp' := (Bool.and_eq_true _ _).mp hp
            simpa using hp'.1
          have : c'.id < nextCaptainId db := id_lt_nextCaptainId hc'
          omega
        rw [hempty]
        simpa using List.length_filter_le _ _
      · have hnew : (({ captain_id := nextCaptainId db, base := pyNorm fb, fleet := pyNorm ff, start_date := now, end_date := none, changed_at := now } : CaptainAssignment).captain_id == cid) = false :=
          beq_eq_false_iff_ne.mpr (Ne.symm hcid)
        simp only [List.filter_singleton, hnew, Bool.false_and, cond_false,
          List.append_nil]
        exact hone

/-- `suggest_update` preserves "at most one open assignment per captain":
a consensus event closes the first open record and opens exactly one new
one; all other branches leave the ledger untouched. -/
theorem openFor_suggest_update_le
    (db : DB) (cid : Nat) (ch fb ff : String) (now : Int) (cid' : Nat)
    (hone : (openFor db.assignments cid').length ≤ 1) :
    (openFor ((suggest_update db cid ch fb ff now).1).assignments cid').length ≤ 1 := by
  unfold suggest_update
  cases hfind : db.captains.find? (fun c => c.id == cid) with
  | none => simpa using hone
  | some c =>
    simp only
    by_cases hval : pyNorm fb ∉ ALLOWED_BASES ∨ pyNorm ff ∉ ALLOWED_FLEETS
    · rw [if_pos hval]
      simpa using hone
    · rw [if_neg hval]
      by_cases hmine : pendingFor db ch cid ≠ []
      · rw [if_pos hmine]
        simpa using hone
      · rw [if_neg hmine]
        by_cases hcons : CONSENSUS_THRESHOLD ≤
          (((consensusMatches (db.suggestions ++ [newSug cid (pyNorm fb) (pyNorm ff) ch now])
              cid (pyNorm fb) (pyNorm ff) (now - suggestionWindow)).map
                (fun m => m.creator_hash)).dedup).length
        · rw [if_pos hcons]
          show (openFor (closeFirstOpen cid now db.assignments ++
            [{ captain_id := cid, base := pyNorm fb, fleet := pyNorm ff,
               start_date := now, end_date := none, changed_at := now }]) cid').length ≤ 1
          by_cases hc : cid' = cid
          · subst hc
            have h1 := openFor_closeFirstOpen_self cid' now db.assignments
            unfold openFor at h1 hone ⊢
            rw [List.filter_append, List.length_append, h1]
            have h2 : (List.filter (fun a => a.captain_id == cid' && a.end_date.isNone) [({ captain_id := cid', base := pyNorm fb, fleet := pyNorm ff, start_date := now, end_date := none, changed_at := now } : CaptainAssignment)]).length ≤ 1 := by
              simp
            omega
          · have h1 := openFor_closeFirstOpen_ne hc now db.assignments
            have hnew : (({ captain_id := cid, base := pyNorm fb, fleet := pyNorm ff, start_date := now, end_date := none, changed_at := now } : CaptainAssignment).captain_id == cid') = false :=
              beq_eq_false_iff_ne.mpr (fun hh => hc hh.symm)
            unfold openFor at h1 hone ⊢
            rw [List.filter_append]
            simp only [List.filter_singleton, hnew, Bool.false_and, cond_false,
              List.append_nil]
            rw [h1]
            exact hone
        · rw [if_neg hcons]
          simpa using hone

/-- Immediately after a consensus event, the target captain's only open
assignment record is the newly created one carrying the approved base and
fleet. -/
theorem openFor_after_consensus
    (db : DB) (cid : Nat) (ch fb ff : String) (now : Int)
    (hone : (openFor db.assignments cid).length ≤ 1)
    (hmsg : (suggest_update db cid ch fb ff now).2 = SuggestMsg.consensusReached) :
    openFor ((suggest_update db cid ch fb ff now).1).assignments cid =
      [{ captain_id := cid, base := pyNorm fb, fleet := pyNorm ff, start_date := now, end_date := none, changed_at := now }] := by
  unfold suggest_update at hmsg ⊢
  cases hfind : db.captains.find? (fun c => c.id == cid) with
  | none =>
    rw [hfind] at hmsg
    exact absurd hmsg (by simp)
  | some c =>
    rw [hfind] at hmsg
    simp only at hmsg ⊢
    by_cases hval : pyNorm fb ∉ ALLOWED_BASES ∨ pyNorm ff ∉ ALLOWED_FLEETS
    · rw [if_pos hval] at hmsg
      exact absurd hmsg (by simp)
    · rw [if_neg hval] at hmsg ⊢
      by_cases hmine : pendingFor db ch cid ≠ []
      · rw [if_pos hmine] at hmsg
        exact absurd hmsg (by simp)
      · rw [if_neg hmine] at hmsg ⊢
        by_cases hcons : CONSENSUS_THRESHOLD ≤
          (((consensusMatches (db.suggestions ++ [newSug cid (pyNorm fb) (pyNorm ff) ch now])
              cid (pyNorm fb) (pyNorm ff) (now - suggestionWindow)).map
                (fun m => m.creator_hash)).dedup).length
        · rw [if_pos hcons]
          show openFor (closeFirstOpen cid now db.assignments ++
            [{ captain_id := cid, base := pyNorm fb, fleet := pyNorm ff, start_date := now, end_date := none, changed_at := now }]) cid = _
          have h1 := openFor_closeFirstOpen_self cid now db.assignments
          have hzero : (openFor (closeFirstOpen cid now db.assignments) cid).length = 0 := by
            omega
          have hnil : openFor (closeFirstOpen cid now db.assignments) cid = [] :=
            List.length_eq_zero.mp hzero
          unfold openFor at hnil ⊢
          rw [List.filter_append, hnil, List.nil_append]
          simp
        · rw [if_neg hcons] at hmsg
          exact absurd hmsg (by simp)

/-- A suggestion created before the trailing window never satisfies the
consensus-match predicate. -/
theorem isMatch_false_of_stale {cid : Nat} {B F : String} {since : Int}
    {m : EditSuggestion} (hstale : m.created_at < since) :
    isMatch cid B F since m = false := by
  unfold isMatch
  have hd : decide (since ≤ m.created_at) = false := decide_eq_false (not_le.mpr hstale)
  simp [hd]

/-- The consensus-match predicate only holds for pending suggestions. -/
theorem isMatch_pending {cid : Nat} {B F : String} {since : Int}
    {m : EditSuggestion} (hm : isMatch cid B F since m = true) :
    m.status = SugStatus.pending := by
  simp only [isMatch, Bool.and_eq_true, beq_iff_eq, decide_eq_true_eq] at hm
  exact hm.1.2

/-- Every pre-existing suggestion either survives `suggest_update`
unchanged or transitions from pending to approved with a resolution
timestamp; no other status change is possible. -/
theorem suggest_update_status_transition
    (db : DB) (cid : Nat) (ch fb ff : String) (now : Int) (i : Nat)
    (h : i < db.suggestions.length) :
    ∃ s', ((suggest_update db cid ch fb ff now).1).suggestions[i]? = some s' ∧
      (s' = db.suggestions.get ⟨i, h⟩ ∨
        ((db.suggestions.get ⟨i, h⟩).status = SugStatus.pending ∧
         s' = { db.suggestions.get ⟨i, h⟩ with
                status := SugStatus.approved, resolved_at := some now })) := by
  unfold suggest_update
  cases hfind : db.captains.find? (fun c => c.id == cid) with
  | none => exact ⟨db.suggestions.get ⟨i, h⟩, List.getElem?_eq_getElem h, Or.inl rfl⟩
  | some c =>
    simp only
    by_cases hval : pyNorm fb ∉ ALLOWED_BASES ∨ pyNorm ff ∉ ALLOWED_FLEETS
    · rw [if_pos hval]
      exact ⟨db.suggestions.get ⟨i, h⟩, List.getElem?_eq_getElem h, Or.inl rfl⟩
    · rw [if_neg hval]
      by_cases hmine : pendingFor db ch cid ≠ []
      · rw [if_pos hmine]
        exact ⟨db.suggestions.get ⟨i, h⟩, List.getElem?_eq_getElem h, Or.inl rfl⟩
      · rw [if_neg hmine]
        have happ : i < (db.suggestions ++ [newSug cid (pyNorm fb) (pyNorm ff) ch now]).length := by
          rw [List.length_append]
          omega
        have hgetapp : (db.suggestions ++ [newSug cid (pyNorm fb) (pyNorm ff) ch now])[i]? =
            some (db.suggestions.get ⟨i, h⟩) := by
          rw [List.getElem?_append, if_pos h]
          exact List.getElem?_eq_getElem h
        by_cases hcons : CONSENSUS_THRESHOLD ≤
          (((consensusMatches (db.suggestions ++ [newSug cid (pyNorm fb) (pyNorm ff) ch now])
              cid (pyNorm fb) (pyNorm ff) (now - suggestionWindow)).map
                (fun m => m.creator_hash)).dedup).length
        · rw [if_pos hcons]
          show ∃ s', ((db.suggestions ++ [newSug cid (pyNorm fb) (pyNorm ff) ch now]).map
            (approveIfMatch cid (pyNorm fb) (pyNorm ff) (now - suggestionWindow) now))[i]? =
              some s' ∧ _
          rw [List.getElem?_map, hgetapp, Option.map_some']
          refine ⟨_, rfl, ?_⟩
          unfold approveIfMatch
          by_cases hm : isMatch cid (pyNorm fb) (pyNorm ff) (now - suggestionWindow)
              (db.suggestions.get ⟨i, h⟩) = true
          · rw [if_pos hm]
            exact Or.inr ⟨isMatch_pending hm, rfl⟩
          · rw [if_neg hm]
            exact Or.inl rfl
        · rw [if_neg hcons]
          exact ⟨db.suggestions.get ⟨i, h⟩, hgetapp, Or.inl rfl⟩

/-- The approval pass is the identity on suggestions created before the
window. -/
theorem approveIfMatch_stale_id {cid : Nat} {B F : String} {since now : Int}
    {m : EditSuggestion} (hstale : m.created_at < since) :
    approveIfMatch cid B F since now m = m := by
  unfold approveIfMatch
  rw [if_neg]
  simp [isMatch_false_of_stale hstale]

/-- A suggestion created before the trailing window is left untouched by
`suggest_update` (in particular a stale pending suggestion stays pending). -/
theorem suggest_update_stale_pending_unchanged
    (db : DB) (cid : Nat) (ch fb ff : String) (now : Int) (i : Nat)
    (h : i < db.suggestions.length)
    (hstale : (db.suggestions.get ⟨i, h⟩).created_at < now - suggestionWindow) :
    ((suggest_update db cid ch fb ff now).1).suggestions[i]? =
      some (db.suggestions.get ⟨i, h⟩) := by
  unfold suggest_update
  cases hfind : db.captains.find? (fun c => c.id == cid) with
  | none => exact List.getElem?_eq_getElem h
  | some c =>
    simp only
    by_cases hval : pyNorm fb ∉ ALLOWED_BASES ∨ pyNorm ff ∉ ALLOWED_FLEETS
    · rw [if_pos hval]
      exact List.getElem?_eq_getElem h
    · rw [if_neg hval]
      by_cases hmine : pendingFor db ch cid ≠ []
      · rw [if_pos hmine]
        exact List.getElem?_eq_getElem h
      · rw [if_neg hmine]
        have hgetapp : (db.suggestions ++ [newSug cid (pyNorm fb) (pyNorm ff) ch now])[i]? =
            some (db.suggestions.get ⟨i, h⟩) := by
          rw [List.getElem?_append, if_pos h]
          exact List.getElem?_eq_getElem h
        by_cases hcons : CONSENSUS_THRESHOLD ≤
          (((consensusMatches (db.suggestions ++ [newSug cid (pyNorm fb) (pyNorm ff) ch now])
              cid (pyNorm fb) (pyNorm ff) (now - suggestionWindow)).map
                (fun m => m.creator_hash)).dedup).length
        · rw [if_pos hcons]
          show ((db.suggestions ++ [newSug cid (pyNorm fb) (pyNorm ff) ch now]).map
            (approveIfMatch cid (pyNorm fb) (pyNorm ff) (now - suggestionWindow) now))[i]? = _
          rw [List.getElem?_map, hgetapp, Option.map_some']
          rw [approveIfMatch_stale_id hstale]
        · rw [if_neg hcons]
          exact hgetapp

/-- Below the display threshold the captain page exposes only the review
count: the per-category dict is empty and the overall score is `None`. -/
theorem captain_page_below_threshold
    (db : DB) (cid : Nat)
    (hc : (db.captains.find? (fun c => c.id == cid)).isSome = true)
    (hlt : (db.reviews.filter (fun r => r.captain_id == cid)).length < MIN_DISPLAY_REVIEWS) :
    ∃ v, captain_page db cid = some v ∧
      v.count = (db.reviews.filter (fun r => r.captain_id == cid)).length ∧
      v.cat_avgs = [] ∧ v.overall = none := by
  obtain ⟨c, hf⟩ := Option.isSome_iff_exists.mp hc
  unfold captain_page
  rw [hf]
  simp only
  rw [if_neg (not_le.mpr hlt), if_neg (not_le.mpr hlt)]
  exact ⟨_, rfl, rfl, rfl, rfl⟩

/-- `top_rated` never lists a captain whose review count is below the
display threshold. -/
theorem top_rated_excludes_below_threshold
    (db : DB) (cid : Nat) (baseF fleetF : String)
    (hlt : (db.reviews.filter (fun r => r.captain_id == cid)).length < MIN_DISPLAY_REVIEWS) :
    ∀ row ∈ top_rated db baseF fleetF, row.1 ≠ cid := by
  intro row hrow heq
  unfold top_rated at hrow
  have h1 := List.take_subset 10 _ hrow
  have h2 := mem_sortRows.mp h1
  obtain ⟨c, hcmem, hsome⟩ := List.mem_filterMap.mp h2
  dsimp only at hsome
  split at hsome
  · exact Option.noConfusion hsome
  · split at hsome
    · exact Option.noConfusion hsome
    · split at hsome
      · exact Option.noConfusion hsome
      · rename_i hcount
        have hrow1 : row.1 = c.id := by
          rw [← Option.some.inj hsome]
        rw [hrow1] at heq
        rw [heq] at hcount
        exact hcount hlt

/-- The index data loop never appends a captain whose review count is below
the display threshold. -/
theorem index_data_excludes_below_threshold
    (db : DB) (cid : Nat) (captains : List Captain)
    (hlt : (db.reviews.filter (fun r => r.captain_id == cid)).length < MIN_DISPLAY_REVIEWS) :
    ∀ row ∈ index_data db captains, row.1 ≠ cid := by
  intro row hrow heq
  unfold index_data at hrow
  obtain ⟨c, hcmem, hsome⟩ := List.mem_filterMap.mp hrow
  dsimp only at hsome
  split at hsome
  · rename_i hcount
    have hrow1 : row.1 = c.id := by
      rw [← Option.some.inj hsome]
    rw [hrow1] at heq
    rw [heq] at hcount
    exact absurd hcount (not_le.mpr hlt)
  · exact Option.noConfusion hsome

/-- The overall score `captain_page` computes — the mean over `EVAL_KEYS`
of the rounded category averages, rounded again — equals the spec-side
`specOverallScore`. -/
theorem code_overall_eq_spec (reviews : List Review) :
    round2 (((EVAL_KEYS.map (fun k => catAvg reviews k)).sum) / (EVAL_KEYS.length : ℚ)) =
      specOverallScore reviews := by
  simp only [EVAL_KEYS, List.map_cons, List.map_nil, List.sum_cons, List.sum_nil,
    List.length_cons, List.length_nil]
  simp only [catAvg, catVals, getScore, specOverallScore, specCatAvg, inv,
    List.map_map, Function.comp_def, reduceCtorEq, if_false]
  norm_num
  congr 1
  ring


/-- C1: when a new suggestion brings the windowed distinct-creator count
for (captain, base, fleet) to the consensus threshold, `suggest_update`
reports a consensus event and, in the same state transition, approves every
in-window matching pending suggestion with a resolution timestamp (none
remains pending), and sets the captain's base, fleet and updated-at to the
proposed values; the approved suggestions and the captain update come from
the one returned state, so no state with approvals but an unchanged captain
record is reachable. -/
theorem consensus_event_atomic
    (db : DB) (cid : Nat) (ch fb ff : String) (now : Int)
    (hc : (db.captains.find? (fun c => c.id == cid)).isSome = true)
    (hB : pyNorm fb ∈ ALLOWED_BASES) (hF : pyNorm ff ∈ ALLOWED_FLEETS)
    (hmine : pendingFor db ch cid = [])
    (hcons : CONSENSUS_THRESHOLD ≤
      (((consensusMatches (db.suggestions ++ [newSug cid (pyNorm fb) (pyNorm ff) ch now])
          cid (pyNorm fb) (pyNorm ff) (now - suggestionWindow)).map
            (fun m => m.creator_hash)).dedup).length) :
    (suggest_update db cid ch fb ff now).2 = SuggestMsg.consensusReached
    ∧ (∀ i (h : i < (db.suggestions ++ [newSug cid (pyNorm fb) (pyNorm ff) ch now]).length),
        isMatch cid (pyNorm fb) (pyNorm ff) (now - suggestionWindow)
          ((db.suggestions ++ [newSug cid (pyNorm fb) (pyNorm ff) ch now]).get ⟨i, h⟩) = true →
        ((suggest_update db cid ch fb ff now).1).suggestions[i]? =
          some { (db.suggestions ++ [newSug cid (pyNorm fb) (pyNorm ff) ch now]).get ⟨i, h⟩ with
                 status := SugStatus.approved, resolved_at := some now })
    ∧ (∀ m ∈ ((suggest_update db cid ch fb ff now).1).suggestions,
        isMatch cid (pyNorm fb) (pyNorm ff) (now - suggestionWindow) m = false)
    ∧ (∀ c ∈ ((suggest_update db cid ch fb ff now).1).captains,
        c.id = cid → c.base = pyNorm fb ∧ c.fleet = pyNorm ff ∧ c.updated_at = now)
    ∧ (∃ c ∈ ((suggest_update db cid ch fb ff now).1).captains, c.id = cid) := by
  obtain ⟨c, hf⟩ := Option.isSome_iff_exists.mp hc
  have hval : ¬(pyNorm fb ∉ ALLOWED_BASES ∨ pyNorm ff ∉ ALLOWED_FLEETS) := by
    rintro (h | h) <;> contradiction
  have hbranch : suggest_update db cid ch fb ff now =
      ({ db with
          captains := db.captains.map (fun c =>
            if c.id == cid then
              { c with base := pyNorm fb, fleet := pyNorm ff, updated_at := now }
            else c),
          assignments := closeFirstOpen cid now db.assignments ++
            [{ captain_id := cid, base := pyNorm fb, fleet := pyNorm ff,
               start_date := now, end_date := none, changed_at := now }],
          suggestions := (db.suggestions ++ [newSug cid (pyNorm fb) (pyNorm ff) ch now]).map
            (approveIfMatch cid (pyNorm fb) (pyNorm ff) (now - suggestionWindow) now) },
        SuggestMsg.consensusReached) := by
    unfold suggest_update
    rw [hf]
    simp only
    rw [if_neg hval, if_neg (not_not.mpr hmine), if_pos hcons]
  refine ⟨by rw [hbranch], ?_, ?_, ?_, ?_⟩
  · intro i h hm
    rw [hbranch]
    show ((db.suggestions ++ [newSug cid (pyNorm fb) (pyNorm ff) ch now]).map
      (approveIfMatch cid (pyNorm fb) (pyNorm ff) (now - suggestionWindow) now))[i]? = _
    rw [List.getElem?_map, List.getElem?_eq_getElem (by simpa using h)]
    simp only [Option.map_some']
    have heq : approveIfMatch cid (pyNorm fb) (pyNorm ff) (now - suggestionWindow) now
        ((db.suggestions ++ [newSug cid (pyNorm fb) (pyNorm ff) ch now]).get ⟨i, h⟩) =
        { (db.suggestions ++ [newSug cid (pyNorm fb) (pyNorm ff) ch now]).get ⟨i, h⟩ with
          status := SugStatus.approved, resolved_at := some now } := by
      rw [approveIfMatch, if_pos hm]
    exact congrArg some heq
  · intro m hmem
    rw [hbranch] at hmem
    obtain ⟨x, hx, rfl⟩ := List.mem_map.mp hmem
    exact isMatch_approveIfMatch_false _ _ _ _ _ _
  · intro c' hmem hid
    rw [hbranch] at hmem
    obtain ⟨x, hx, rfl⟩ := List.mem_map.mp hmem
    by_cases hxc : (x.id == cid) = true
    · rw [if_pos hxc]
      exact ⟨rfl, rfl, rfl⟩
    · rw [if_neg hxc] at hid ⊢
      exact absurd (beq_iff_eq.mpr hid) hxc
  · have hcm : c ∈ db.captains := List.mem_of_find?_eq_some hf
    have hcid' := List.find?_some hf
    have hcid : (c.id == cid) = true := by simpa using hcid'
    rw [hbranch]
    refine ⟨{ c with base := pyNorm fb, fleet := pyNorm ff, updated_at := now }, ?_, ?_⟩
    · have := List.mem_map_of_mem (fun c =>
        if c.id == cid then
          { c with base := pyNorm fb, fleet := pyNorm ff, updated_at := now }
        else c) hcm
      simpa [hcid] using this
    · exact beq_iff_eq.mp hcid

/-- C1 witness: in `sampleDB`, a matching suggestion by creator k2 at time 1
joins k1's pending one and triggers consensus. -/
theorem consensus_event_atomic_witness :
    (suggest_update sampleDB 1 "k2" "IAH" "757" 1).2 = SuggestMsg.consensusReached :=
  (consensus_event_atomic sampleDB 1 "k2" "IAH" "757" 1 (by decide) (by decide)
    (by decide) (by decide) (by decide)).1

/-- C2: at or above the display threshold, the overall score shown by the
captain page equals `specOverallScore` — the arithmetic mean of the 13
scoring-category averages (the 12 evaluative categories with micromanagement
values transformed by `v ↦ 6 - v` before averaging, plus would-fly-again),
rounded to 2 decimal places; the 3 style categories do not occur in
`specOverallScore`. -/
theorem captain_page_overall_eq_spec
    (db : DB) (cid : Nat)
    (hc : (db.captains.find? (fun c => c.id == cid)).isSome = true)
    (hge : MIN_DISPLAY_REVIEWS ≤ (db.reviews.filter (fun r => r.captain_id == cid)).length) :
    ∃ v, captain_page db cid = some v ∧
      v.count = (db.reviews.filter (fun r => r.captain_id == cid)).length ∧
      v.overall = some (specOverallScore (db.reviews.filter (fun r => r.captain_id == cid))) := by
  obtain ⟨c, hf⟩ := Option.isSome_iff_exists.mp hc
  unfold captain_page
  rw [hf]
  simp only
  rw [if_pos hge, if_pos hge]
  refine ⟨_, rfl, rfl, ?_⟩
  show some (round2 (((EVAL_KEYS.map (fun k =>
    catAvg (db.reviews.filter (fun r => r.captain_id == cid)) k)).sum) /
      (EVAL_KEYS.length : ℚ))) = _
  rw [code_overall_eq_spec]

/-- C2 witness: three maximally positive reviews yield an overall equal to
the spec-side score. -/
theorem captain_page_overall_eq_spec_witness :
    ∃ v, captain_page sampleDB3 1 = some v ∧
      v.count = (sampleDB3.reviews.filter (fun r => r.captain_id == 1)).length ∧
      v.overall = some (specOverallScore (sampleDB3.reviews.filter (fun r => r.captain_id == 1))) :=
  captain_page_overall_eq_spec sampleDB3 1 (by decide) (by decide)

/-- C3: below the display threshold no read path exposes an average or an
overall score: the captain page returns an empty category dict and a `None`
overall (only the count), and the top listing and the index data loop omit
the captain entirely. -/
theorem below_threshold_no_averages :
    (∀ db cid, (db.captains.find? (fun c => c.id == cid)).isSome = true →
      (db.reviews.filter (fun r => r.captain_id == cid)).length < MIN_DISPLAY_REVIEWS →
      ∃ v, captain_page db cid = some v ∧
        v.count = (db.reviews.filter (fun r => r.captain_id == cid)).length ∧
        v.cat_avgs = [] ∧ v.overall = none)
    ∧ (∀ db cid baseF fleetF,
        (db.reviews.filter (fun r => r.captain_id == cid)).length < MIN_DISPLAY_REVIEWS →
        ∀ row ∈ top_rated db baseF fleetF, row.1 ≠ cid)
    ∧ (∀ db cid captains,
        (db.reviews.filter (fun r => r.captain_id == cid)).length < MIN_DISPLAY_REVIEWS →
        ∀ row ∈ index_data db captains, row.1 ≠ cid) :=
  ⟨captain_page_below_threshold,
   fun db cid baseF fleetF => top_rated_excludes_below_threshold db cid baseF fleetF,
   fun db cid captains => index_data_excludes_below_threshold db cid captains⟩

/-- C3 witness: with a single review, captain 1 shows only its count and is
absent from both listings. -/
theorem below_threshold_no_averages_witness :
    (∃ v, captain_page sampleDB1 1 = some v ∧
      v.count = (sampleDB1.reviews.filter (fun r => r.captain_id == 1)).length ∧
      v.cat_avgs = [] ∧ v.overall = none)
    ∧ (∀ row ∈ top_rated sampleDB1 "" "", row.1 ≠ 1)
    ∧ (∀ row ∈ index_data sampleDB1 sampleDB1.captains, row.1 ≠ 1) :=
  ⟨below_threshold_no_averages.1 sampleDB1 1 (by decide) (by decide),
   below_threshold_no_averages.2.1 sampleDB1 1 "" "" (by decide),
   below_threshold_no_averages.2.2 sampleDB1 1 sampleDB1.captains (by decide)⟩

/-- C4: each captain has at most one open (null end-date) assignment: the
invariant is preserved by `captain_new` (under referential integrity of the
ledger) and by `suggest_update`, `review_new` never touches the ledger, and
immediately after a successful consensus event the unique open record is the
new one carrying the approved base and fleet. -/
theorem at_most_one_open_assignment :
    (∀ db name fb ff eid now cid,
      (∀ a ∈ db.assignments, ∃ c ∈ db.captains, a.captain_id = c.id) →
      (openFor db.assignments cid).length ≤ 1 →
      (openFor ((captain_new db name fb ff eid now).1).assignments cid).length ≤ 1)
    ∧ (∀ db cid ch fb ff now cid', (openFor db.assignments cid').length ≤ 1 →
        (openFor ((suggest_update db cid ch fb ff now).1).assignments cid').length ≤ 1)
    ∧ (∀ db cid ch fb ff now, (openFor db.assignments cid).length ≤ 1 →
        (suggest_update db cid ch fb ff now).2 = SuggestMsg.consensusReached →
        openFor ((suggest_update db cid ch fb ff now).1).assignments cid =
          [{ captain_id := cid, base := pyNorm fb, fleet := pyNorm ff, start_date := now, end_date := none, changed_at := now }])
    ∧ (∀ db cid ch form now, ((review_new db cid ch form now).1).assignments = db.assignments) :=
  ⟨openFor_captain_new_le, openFor_suggest_update_le, openFor_after_consensus,
   review_new_assignments_eq⟩

/-- C4 witness: after the consensus event in `sampleDB`, captain 1's only
open assignment is (IAH, 757) started at time 1. -/
theorem at_most_one_open_assignment_witness :
    openFor ((suggest_update sampleDB 1 "k2" "IAH" "757" 1).1).assignments 1 =
      [{ captain_id := 1, base := pyNorm "IAH", fleet := pyNorm "757", start_date := 1, end_date := none, changed_at := 1 }] :=
  at_most_one_open_assignment.2.2.1 sampleDB 1 "k2" "IAH" "757" 1 (by decide) (by decide)

/-- C5: each creator has at most one pending suggestion per captain: the
bound is preserved by `suggest_update` for every creator/captain pair
(`captain_new` and `review_new` never touch suggestions), a submission by a
creator with an existing pending suggestion for that captain mutates nothing
and yields a user-visible rejection, and with a valid captain and base/fleet
that rejection is exactly the duplicate-pending message. -/
theorem one_pending_suggestion_per_creator_per_captain :
    (∀ db cid ch fb ff now K' cid',
      (pendingFor db K' cid').length ≤ 1 →
      (pendingFor ((suggest_update db cid ch fb ff now).1) K' cid').length ≤ 1)
    ∧ (∀ db cid ch fb ff now, pendingFor db ch cid ≠ [] →
        (suggest_update db cid ch fb ff now).1 = db ∧
          ((suggest_update db cid ch fb ff now).2 = SuggestMsg.duplicatePending ∨
           (suggest_update db cid ch fb ff now).2 = SuggestMsg.invalidBaseFleet ∨
           (suggest_update db cid ch fb ff now).2 = SuggestMsg.notFound))
    ∧ (∀ db cid ch fb ff now,
        (db.captains.find? (fun c => c.id == cid)).isSome = true →
        pyNorm fb ∈ ALLOWED_BASES → pyNorm ff ∈ ALLOWED_FLEETS →
        pendingFor db ch cid ≠ [] →
        suggest_update db cid ch fb ff now = (db, SuggestMsg.duplicatePending))
    ∧ (∀ db name fb ff eid now,
        ((captain_new db name fb ff eid now).1).suggestions = db.suggestions)
    ∧ (∀ db cid ch form now,
        ((review_new db cid ch form now).1).suggestions = db.suggestions) :=
  ⟨pendingFor_suggest_update_le, suggest_update_duplicate_no_mutation,
   suggest_update_duplicate_msg, captain_new_suggestions_eq, review_new_suggestions_eq⟩

/-- C5 witness: creator k1, who already has a pending suggestion for
captain 1, is rejected on a second submission with different values. -/
theorem one_pending_suggestion_per_creator_per_captain_witness :
    suggest_update sampleDB 1 "k1" "DEN" "A320" 5 = (sampleDB, SuggestMsg.duplicatePending) :=
  one_pending_suggestion_per_creator_per_captain.2.2.1 sampleDB 1 "k1" "DEN" "A320" 5
    (by decide) (by decide) (by decide) (by decide)

/-- C6: a matching suggestion from a second distinct creator after the
14-day window has elapsed does not trigger consensus: the submission is
merely recorded (captain, ledger and prior suggestions untouched), while the
just-created suggestion itself does belong to the windowed match set the
engine counts. -/
theorem stale_corroboration_no_consensus
    (db : DB) (cid : Nat) (ch fb ff : String) (now : Int)
    (hc : (db.captains.find? (fun c => c.id == cid)).isSome = true)
    (hB : pyNorm fb ∈ ALLOWED_BASES) (hF : pyNorm ff ∈ ALLOWED_FLEETS)
    (hmine : pendingFor db ch cid = [])
    (hold : ∀ m ∈ db.suggestions, m.captain_id = cid → m.new_base = pyNorm fb →
      m.new_fleet = pyNorm ff → m.status = SugStatus.pending →
      m.created_at < now - suggestionWindow) :
    suggest_update db cid ch fb ff now =
      ({ db with suggestions :=
          db.suggestions ++ [newSug cid (pyNorm fb) (pyNorm ff) ch now] },
        SuggestMsg.recorded)
    ∧ newSug cid (pyNorm fb) (pyNorm ff) ch now ∈
        consensusMatches (db.suggestions ++ [newSug cid (pyNorm fb) (pyNorm ff) ch now])
          cid (pyNorm fb) (pyNorm ff) (now - suggestionWindow) := by
  obtain ⟨c, hf⟩ := Option.isSome_iff_exists.mp hc
  have hwin : (0:Int) ≤ suggestionWindow := by decide
  have hnew : isMatch cid (pyNorm fb) (pyNorm ff) (now - suggestionWindow)
      (newSug cid (pyNorm fb) (pyNorm ff) ch now) = true := by
    simp only [isMatch, newSug, beq_self_eq_true, Bool.and_eq_true, decide_eq_true_eq]
    refine ⟨⟨⟨⟨trivial, trivial⟩, trivial⟩, trivial⟩, ?_⟩
    omega
  have hold' : db.suggestions.filter
      (isMatch cid (pyNorm fb) (pyNorm ff) (now - suggestionWindow)) = [] := by
    rw [List.filter_eq_nil_iff]
    intro m hm hmatch
    simp only [isMatch, Bool.and_eq_true, beq_iff_eq, decide_eq_true_eq] at hmatch
    obtain ⟨⟨⟨⟨h1, h2⟩, h3⟩, h4⟩, h5⟩ := hmatch
    exact absurd h5 (not_le.mpr (hold m hm h1 h2 h3 h4))
  have hmatches : consensusMatches
      (db.suggestions ++ [newSug cid (pyNorm fb) (pyNorm ff) ch now])
      cid (pyNorm fb) (pyNorm ff) (now - suggestionWindow) =
      [newSug cid (pyNorm fb) (pyNorm ff) ch now] := by
    unfold consensusMatches
    rw [List.filter_append, hold', List.filter_singleton]
    simp [hnew]
  have hval : ¬(pyNorm fb ∉ ALLOWED_BASES ∨ pyNorm ff ∉ ALLOWED_FLEETS) := by
    rintro (h | h) <;> contradiction
  have hcons : ¬(CONSENSUS_THRESHOLD ≤
      (((consensusMatches (db.suggestions ++ [newSug cid (pyNorm fb) (pyNorm ff) ch now])
          cid (pyNorm fb) (pyNorm ff) (now - suggestionWindow)).map
            (fun m => m.creator_hash)).dedup).length) := by
    rw [hmatches]
    simp [CONSENSUS_THRESHOLD]
  unfold suggest_update
  rw [hf]
  simp only
  rw [if_neg hval, if_neg (not_not.mpr hmine), if_neg hcons]
  exact ⟨rfl, by rw [hmatches]; exact List.mem_singleton_self _⟩

/-- C6 witness: k2 corroborates k1's (IAH, 757) suggestion at time 400,
past the 336-hour window, and the suggestion is only recorded. -/
theorem stale_corroboration_no_consensus_witness :
    suggest_update sampleDB 1 "k2" "IAH" "757" 400 =
      ({ sampleDB with suggestions := sampleDB.suggestions ++
          [newSug 1 (pyNorm "IAH") (pyNorm "757") "k2" 400] }, SuggestMsg.recorded) :=
  (stale_corroboration_no_consensus sampleDB 1 "k2" "IAH" "757" 400
    (by decide) (by decide) (by decide) (by decide) (by decide)).1

/-- C9: no operation ever sets a suggestion's status to rejected or
expired: under `suggest_update` every pre-existing suggestion either stays
unchanged or moves from pending to approved, a suggestion created before the
trailing window is left untouched (so a stale pending suggestion remains
pending), and `captain_new`/`review_new` never modify suggestions at all.
The `SUGGESTION_EXPIRE_DAYS` constant is mirrored in this development and
referenced by no operation. -/
theorem suggestion_status_never_rejected_or_expired :
    (∀ db cid ch fb ff now i (h : i < db.suggestions.length),
      ∃ s', ((suggest_update db cid ch fb ff now).1).suggestions[i]? = some s' ∧
        (s' = db.suggestions.get ⟨i, h⟩ ∨
          ((db.suggestions.get ⟨i, h⟩).status = SugStatus.pending ∧
           s' = { db.suggestions.get ⟨i, h⟩ with
                  status := SugStatus.approved, resolved_at := some now })))
    ∧ (∀ db cid ch fb ff now i (h : i < db.suggestions.length),
        (db.suggestions.get ⟨i, h⟩).created_at < now - suggestionWindow →
        ((suggest_update db cid ch fb ff now).1).suggestions[i]? =
          some (db.suggestions.get ⟨i, h⟩))
    ∧ (∀ db name fb ff eid now,
        ((captain_new db name fb ff eid now).1).suggestions = db.suggestions)
    ∧ (∀ db cid ch form now,
        ((review_new db cid ch form now).1).suggestions = db.suggestions) :=
  ⟨suggest_update_status_transition, suggest_update_stale_pending_unchanged,
   captain_new_suggestions_eq, review_new_suggestions_eq⟩

/-- C9 witness: k1's stale pending suggestion survives a later submission
unchanged — still pending, never rejected or expired. -/
theorem suggestion_status_never_rejected_or_expired_witness :
    ((suggest_update sampleDB 1 "k2" "IAH" "757" 400).1).suggestions[0]? =
      some { captain_id := 1, new_base := "IAH", new_fleet := "757", status := SugStatus.pending, created_at := 0, resolved_at := none, creator_hash := "k1" } := by
  have h := suggestion_status_never_rejected_or_expired.2.1 sampleDB 1 "k2" "IAH" "757" 400 0
    (by decide) (by decide)
  exact h.trans (by decide)

/-- C10 witness: with no search query present, the index route raises
`NameError` on `s`. -/
theorem index_always_raises_name_error_s_witness :
    runStmts (indexProgram false) indexGlobals = PyOutcome.nameError "s" :=
  index_always_raises_name_error_s false
